import Mathlib

/-!
Verification development for the Lea-Tester benchmark harness.

The harness (a Node.js program) walks an image folder, deduplicates the
files by size and sha256, materializes them into a testbed folder,
normalizes them to PPM, then times the external Lea 0.4 and Lea 0.5
compressors and decompressors (three invocations each, keeping the
minimum wall-clock duration) and writes an aggregated report.

This file is a shallow embedding of that program.  Pure data flow is
translated into Lean functions; every external effect (subprocess
outcome, filesystem stat, hashing) is an explicit oracle argument.
JavaScript numbers are modelled as exact rationals extended with the
special values Infinity, -Infinity and NaN; JavaScript objects are
modelled as insertion-ordered association lists, matching the key order
that JSON.stringify observes.
-/

/-- JavaScript number values produced by the harness: a finite value
(modelled exactly as a rational; every number the harness computes is a
small integer ratio, so no floating point rounding is observable in the
claims), positive and negative Infinity, and NaN. -/
inductive JSNum where
  | num (q : ℚ)
  | posInf
  | negInf
  | nan
deriving DecidableEq

/-- JavaScript addition on numbers. -/
def jsAdd : JSNum → JSNum → JSNum
  | JSNum.nan, _ => JSNum.nan
  | _, JSNum.nan => JSNum.nan
  | JSNum.posInf, JSNum.negInf => JSNum.nan
  | JSNum.negInf, JSNum.posInf => JSNum.nan
  | JSNum.posInf, _ => JSNum.posInf
  | _, JSNum.posInf => JSNum.posInf
  | JSNum.negInf, _ => JSNum.negInf
  | _, JSNum.negInf => JSNum.negInf
  | JSNum.num a, JSNum.num b => JSNum.num (a + b)

/-- JavaScript unary minus on numbers. -/
def jsNeg : JSNum → JSNum
  | JSNum.num a => JSNum.num (-a)
  | JSNum.posInf => JSNum.negInf
  | JSNum.negInf => JSNum.posInf
  | JSNum.nan => JSNum.nan

/-- JavaScript subtraction on numbers. -/
def jsSub (a b : JSNum) : JSNum := jsAdd a (jsNeg b)

/-- JavaScript multiplication on numbers (signed zeros are not
distinguished; the harness never produces a negative zero). -/
def jsMul : JSNum → JSNum → JSNum
  | JSNum.nan, _ => JSNum.nan
  | _, JSNum.nan => JSNum.nan
  | JSNum.num a, JSNum.num b => JSNum.num (a * b)
  | JSNum.num a, JSNum.posInf =>
      if 0 < a then JSNum.posInf else if a < 0 then JSNum.negInf else JSNum.nan
  | JSNum.num a, JSNum.negInf =>
      if 0 < a then JSNum.negInf else if a < 0 then JSNum.posInf else JSNum.nan
  | JSNum.posInf, JSNum.num b =>
      if 0 < b then JSNum.posInf else if b < 0 then JSNum.negInf else JSNum.nan
  | JSNum.negInf, JSNum.num b =>
      if 0 < b then JSNum.negInf else if b < 0 then JSNum.posInf else JSNum.nan
  | JSNum.posInf, JSNum.posInf => JSNum.posInf
  | JSNum.posInf, JSNum.negInf => JSNum.negInf
  | JSNum.negInf, JSNum.posInf => JSNum.negInf
  | JSNum.negInf, JSNum.negInf => JSNum.posInf

/-- JavaScript division on numbers: division of a nonzero finite value by
(positive) zero yields a signed Infinity, 0 / 0 yields NaN, and division
never throws. -/
def jsDiv : JSNum → JSNum → JSNum
  | JSNum.nan, _ => JSNum.nan
  | _, JSNum.nan => JSNum.nan
  | JSNum.num a, JSNum.num b =>
      if b = 0 then (if 0 < a then JSNum.posInf else if a < 0 then JSNum.negInf else JSNum.nan)
      else JSNum.num (a / b)
  | JSNum.num _, JSNum.posInf => JSNum.num 0
  | JSNum.num _, JSNum.negInf => JSNum.num 0
  | JSNum.posInf, JSNum.num b => if 0 ≤ b then JSNum.posInf else JSNum.negInf
  | JSNum.negInf, JSNum.num b => if 0 ≤ b then JSNum.negInf else JSNum.posInf
  | _, _ => JSNum.nan

/-- JavaScript values stored in the report records: numbers and strings
(the harness stores nothing else in a record). -/
inductive JSVal where
  | num (n : JSNum)
  | str (s : String)
deriving DecidableEq

/-- A JavaScript object, as an insertion-ordered association list: the
order models the property order that object spreads, assignments and
JSON.stringify observe. -/
abbrev JSObj := List (String × JSVal)

/-- Property read, o[k]: the value of the first (unique) matching key. -/
def objGet : JSObj → String → Option JSVal
  | [], _ => none
  | p :: rest, k => if p.1 = k then some p.2 else objGet rest k

/-- Property write, o[k] = v: replaces an existing key in place,
otherwise appends the key (JavaScript property-order semantics). -/
def objSet : JSObj → String → JSVal → JSObj
  | [], k, v => [(k, v)]
  | p :: rest, k, v => if p.1 = k then (k, v) :: rest else p :: objSet rest k v

/-- Property deletion, delete o[k]: removes the (unique) matching key
and keeps the order of the remaining properties. -/
def objDel : JSObj → String → JSObj
  | [], _ => []
  | p :: rest, k => if p.1 = k then objDel rest k else p :: objDel rest k

/-- Reading a property for use in arithmetic: a missing property is
undefined, and arithmetic on undefined (or on a string, which the
harness never does) yields NaN. -/
def objGetNum (o : JSObj) (k : String) : JSNum :=
  match objGet o k with
  | some (JSVal.num n) => n
  | _ => JSNum.nan

/-- JSON values appearing in the serialized report. -/
inductive JsonVal where
  | num (q : ℚ)
  | str (s : String)
  | null
deriving DecidableEq

/-- JSON.stringify value conversion: NaN and the Infinities serialize as
null. -/
def jsvalToJson : JSVal → JsonVal
  | JSVal.num (JSNum.num q) => JsonVal.num q
  | JSVal.num _ => JsonVal.null
  | JSVal.str s => JsonVal.str s

/-- JSON.stringify of one record: keys keep their insertion order. -/
def serializeObj (o : JSObj) : List (String × JsonVal) :=
  o.map (fun p => (p.1, jsvalToJson p.2))

/-- JSON.stringify of the whole report array. -/
def serializeReport (rep : List JSObj) : List (List (String × JsonVal)) :=
  rep.map serializeObj

/-- Key lookup in a serialized record. -/
def getJson : List (String × JsonVal) → String → Option JsonVal
  | [], _ => none
  | p :: rest, k => if p.1 = k then some p.2 else getJson rest k

/-! ## Paths and file collection (utils.js) -/

/-- path.basename for POSIX paths: the part after the last slash. -/
def basenameOf (p : String) : String :=
  String.mk (p.toList.foldl (fun acc c => if c = '/' then [] else acc ++ [c]) [])

/-- String.prototype.toLowerCase, character by character (all the
extensions involved are plain ASCII). -/
def lowerStr (s : String) : String :=
  String.mk (s.toList.map Char.toLower)

/-- Index of the last dot of a character list, if any. -/
def lastDotIdx (cs : List Char) : Option ℕ :=
  ((List.range cs.length).filter (fun i => cs.getD i ' ' == '.')).getLast?

/-- path.extname for POSIX paths: from the last dot of the basename to
the end; empty when the basename has no dot or only a leading dot. -/
def extname (p : String) : String :=
  let b := basenameOf p
  match lastDotIdx b.toList with
  | none => ""
  | some 0 => ""
  | some i => String.mk (b.toList.drop i)

/-- The allow-list of image extensions from cleanList in utils.js
(".svg" is listed twice in the source, faithfully kept). -/
def validFileExtensions : List String :=
  [".jpg", ".jpeg", ".png", ".gif", ".bmp",
   ".tiff", ".tif", ".webp", ".svg", ".psd", ".ai", ".eps", ".svg",
   ".ppm", ".pgm", ".pbm", ".pnm", ".pam", ".pfm", ".pcx", ".xwd"]

/-- A candidate file on disk, as the collector sees it: its path plus
the two external observations cleanList makes about it, fs.statSync
size and the sha256-file content digest. -/
structure SrcFile where
  path : String
  size : ℕ
  sha256 : String
deriving DecidableEq

/-- The extension filter applied by cleanList:
validFileExtensions.includes(path.extname(file).toLowerCase()). -/
def validExtFile (f : SrcFile) : Bool :=
  validFileExtensions.contains (lowerStr (extname f.path))

/-- The entry object cleanList builds per kept file. -/
structure Entry where
  fullname : String
  filename : String
  originalSize : ℕ
  originalsha256 : String
deriving DecidableEq

/-- The entry built from a source file (fullname, path.basename,
size, sha256). -/
def entryOf (f : SrcFile) : Entry :=
  ⟨f.path, basenameOf f.path, f.size, f.sha256⟩

/-- The predicate of the acc.find call inside deduper: an accumulated
entry with the same size and the same sha256. -/
def entryKeyHit (n : ℕ) (h : String) (e : Entry) : Bool :=
  decide (e.originalSize = n) && decide (e.originalsha256 = h)

/-- The same key test on a source file. -/
def srcKeyHit (n : ℕ) (h : String) (f : SrcFile) : Bool :=
  decide (f.size = n) && decide (f.sha256 = h)

/-- The deduper reducer of cleanList (utils.js): the size and the sha256
of the current file are computed unconditionally (the sha256File call
precedes every branch); a zero-byte file adds nothing; a file whose
(size, sha256) pair is already present adds nothing; otherwise the entry
is appended. -/
def deduper (acc : List Entry) (curr : SrcFile) : List Entry :=
  if curr.size = 0 then acc
  else if acc.any (entryKeyHit curr.size curr.sha256) then acc
  else acc ++ [entryOf curr]

/-- cleanList (utils.js): extension filter, then the deduper reduce with
an empty initial accumulator. -/
def cleanList (files : List SrcFile) : List Entry :=
  (files.filter validExtFile).foldl deduper []

/-- The deduper instrumented with the list of files whose sha256 was
computed: sha256File(curr) runs at the top of the reducer body, before
the zero-size and duplicate branches, so every reduced file is recorded. -/
def deduperH (acc : List Entry × List String) (curr : SrcFile) : List Entry × List String :=
  (deduper acc.1 curr, acc.2 ++ [curr.path])

/-- cleanList instrumented with the hashed-file trace. -/
def cleanListH (files : List SrcFile) : List Entry × List String :=
  (files.filter validExtFile).foldl deduperH ([], [])

/-! ## Format normalization (normalizeToPPM in utils.js) -/

/-- The testbed folder of the harness (path.join(__dirname, "img")),
kept as a plain relative name in the model. -/
def imgFolder : String := "img"

/-- The PPM working folder (path.join(__dirname, "tmp", "ppm")). -/
def ppmTempFolder : String := "tmp/ppm"

/-- path.join of a folder and a name, POSIX flavor. -/
def pathJoin (a b : String) : String := a ++ "/" ++ b

/-- What normalizeToPPM does to one file. -/
inductive NormStep where
  | copied (src dest : String)
  | convertCalled (src dest : String)
  | typeError
deriving DecidableEq

/-- The JavaScript expression file.filename.ppm: a property access named
ppm on a string value.  Strings have no such property, so the result is
undefined for every filename. -/
def strPropPpm (_ : String) : Option String := none

/-- normalizeToPPM (utils.js), per file: when the extension already is
.ppm the source computes path.join(ppmTempFolder, file.filename.ppm)
and copies to it; since file.filename.ppm is undefined, path.join throws
a TypeError before any copy happens.  Otherwise gm(currentFile).write
(the external converter) is invoked toward filename + ".ppm". -/
def normalizeStep (filename : String) : NormStep :=
  if lowerStr (extname filename) = ".ppm" then
    match strPropPpm filename with
    | none => NormStep.typeError
    | some v => NormStep.copied (pathJoin imgFolder filename) (pathJoin ppmTempFolder v)
  else
    NormStep.convertCalled (pathJoin imgFolder filename)
      (pathJoin ppmTempFolder (filename ++ ".ppm"))

/-! ## Startup dependency checks (index.js top level) -/

/-- How the process leaves (or does not leave) the startup checks. -/
inductive Startup where
  | uncaughtException
  | exitCode (c : ℕ)
  | proceeds
deriving DecidableEq

/-- execSync of a probe command such as gm version: when the binary is
present it returns the captured stdout; when it is absent the shell
exits nonzero and execSync throws.  The second argument the source
passes is a callback, which execSync ignores (its options slot). -/
def execSyncProbe (present : Bool) (out : String) : Except Unit String :=
  if present then Except.ok out else Except.error ()

/-- The module top level of index.js: haveGm is the stdout of gm
version (an exception here is uncaught), haveWine is false on Windows
and otherwise the stdout of wine --version (again an uncaught exception
when absent); afterward the two if-blocks call process.exit(2) when the
corresponding truthiness check fails. -/
def startupCheck (isWindows gmPresent winePresent : Bool) : Startup :=
  match execSyncProbe gmPresent "GraphicsMagick 1.3.40" with
  | Except.error _ => Startup.uncaughtException
  | Except.ok gmOut =>
    match (if isWindows then Except.ok "" else execSyncProbe winePresent "wine-8.0") with
    | Except.error _ => Startup.uncaughtException
    | Except.ok wineOut =>
      if gmOut = "" then Startup.exitCode 2
      else if (!isWindows) && wineOut = "" then Startup.exitCode 2
      else Startup.proceeds

/-! ## Subprocess runner (runSync in index.js) -/

/-- The options object passed to execSync inside runSync:
only encoding is set; in particular no timeout is configured. -/
def execSyncOptions : JSObj := [("encoding", JSVal.str "utf8")]

/-- The value runSync returns: the measured wall-clock time in
milliseconds and whether the invocation succeeded. -/
structure RunResult where
  time : ℤ
  ok : Bool
deriving DecidableEq

/-- runSync (index.js): the invocation outcome oracle is some d when the
subprocess exits 0 after d milliseconds of wall-clock time, none when it
fails to launch or exits nonzero.  On success the measured duration is
returned; on failure the catch block returns time -1. -/
def runSync (outcome : Option ℕ) : RunResult :=
  match outcome with
  | some d => ⟨(d : ℤ), true⟩
  | none => ⟨-1, false⟩

/-- The entry pushed into the times array for one invocation. -/
def timeOf (outcome : Option ℕ) : ℤ := (runSync outcome).time

/-- The times array built by the three-iteration compression loop. -/
def timesList (r : Fin 3 → Option ℕ) : List ℤ :=
  List.ofFn (fun i => timeOf (r i))

/-- Math.min(...times) for the three recorded values. -/
def minTime (r : Fin 3 → Option ℕ) : ℤ :=
  min (min (timeOf (r 0)) (timeOf (r 1))) (timeOf (r 2))

/-! ## The benchmark pipeline (processEverything in index.js) -/

/-- One file as processEverything sees it, with the oracles for all its
external interactions.  The first seven fields are the properties of the
file object produced by getAllFiles.  comp4, comp5, decomp4, decomp5
give the outcome of each of the three timed invocations per stage
(some duration on success, none on failure).  cSize4, cSize5, dSize4,
dSize5 are the du -b measurements of the produced artifacts: some size
when the artifact exists, none when du fails.  A failing du prints
nothing to stdout and the pipeline through cut still exits 0, so
execSync returns an empty string and parseInt yields NaN rather than
throwing. -/
structure FileJob where
  fullname : String
  filename : String
  originalSize : ℚ
  originalsha256 : String
  ppmFile : String
  ppmSize : ℚ
  ppmsha256 : String
  comp4 : Fin 3 → Option ℕ
  comp5 : Fin 3 → Option ℕ
  decomp4 : Fin 3 → Option ℕ
  decomp5 : Fin 3 → Option ℕ
  cSize4 : Option ℚ
  cSize5 : Option ℚ
  dSize4 : Option ℚ
  dSize5 : Option ℚ

/-- parseInt of the du | cut output: the measured size when du found the
artifact, NaN (parseInt of the empty string) when du failed. -/
def duSize : Option ℚ → JSNum
  | some s => JSNum.num s
  | none => JSNum.nan

/-- The minimum compression time of Lea 0.4 as a JavaScript number. -/
def cMin4 (f : FileJob) : ℚ := (minTime f.comp4 : ℚ)

/-- The minimum compression time of Lea 0.5 as a JavaScript number. -/
def cMin5 (f : FileJob) : ℚ := (minTime f.comp5 : ℚ)

/-- The minimum decompression time of Lea 0.4 as a JavaScript number. -/
def dMin4 (f : FileJob) : ℚ := (minTime f.decomp4 : ℚ)

/-- The minimum decompression time of Lea 0.5 as a JavaScript number. -/
def dMin5 (f : FileJob) : ℚ := (minTime f.decomp5 : ℚ)

/-- The entry object as built by cleanList for this file (it still has
the fullname property). -/
def entryObjOf (f : FileJob) : JSObj :=
  [("fullname", JSVal.str f.fullname),
   ("filename", JSVal.str f.filename),
   ("originalSize", JSVal.num (JSNum.num f.originalSize)),
   ("originalsha256", JSVal.str f.originalsha256)]

/-- toTestbed (utils.js): after copying the file into the testbed it
deletes the fullname property. -/
def testbedObjOf (f : FileJob) : JSObj :=
  objDel (entryObjOf f) "fullname"

/-- getPPMStatistics (utils.js): spreads the file object and adds the
ppmFile path, the PPM size and the PPM sha256. -/
def fileObjOf (f : FileJob) : JSObj :=
  objSet (objSet (objSet (testbedObjOf f)
    "ppmFile" (JSVal.str f.ppmFile))
    "ppmSize" (JSVal.num (JSNum.num f.ppmSize)))
    "ppmsha256" (JSVal.str f.ppmsha256)

/-- The record pushed by the Lea 0.4 compression pass: the spread of the
file object plus cTime0.4 (the minimum of the three durations),
cSpeed0.4 = ppmSize / (minTime / 1000), cSize0.4, and the two ratios
scaled by 100. -/
def rec1 (f : FileJob) : JSObj :=
  objSet (objSet (objSet (objSet (objSet (fileObjOf f)
    "cTime0.4" (JSVal.num (JSNum.num (cMin4 f))))
    "cSpeed0.4" (JSVal.num (jsDiv (JSNum.num f.ppmSize) (JSNum.num (cMin4 f / 1000)))))
    "cSize0.4" (JSVal.num (duSize f.cSize4)))
    "cRatio0.4" (JSVal.num (jsMul (jsDiv (duSize f.cSize4) (JSNum.num f.originalSize)) (JSNum.num 100))))
    "cRatioPPM0.4" (JSVal.num (jsMul (jsDiv (duSize f.cSize4) (JSNum.num f.ppmSize)) (JSNum.num 100)))

/-- The Lea 0.4 compression pass body: report.push of the new record. -/
def pass1File (rep : List JSObj) (f : FileJob) : List JSObj :=
  rep ++ [rec1 f]

/-- report.findIndex(r => file.originalsha256 === r.originalsha256). -/
def findIndexSha : List JSObj → String → Option ℕ
  | [], _ => none
  | r :: rest, sha =>
    if objGet r "originalsha256" = some (JSVal.str sha) then some 0
    else (findIndexSha rest sha).map (· + 1)

/-- The shared shape of the three merge passes: locate the record by
content hash and assign the updated record back; when findIndex misses,
the source indexes the array at -1 and throws a TypeError while reading
a property of undefined, leaving the report unchanged. -/
def mergePass (upd : JSObj → FileJob → JSObj) (rep : List JSObj) (f : FileJob) : List JSObj :=
  match findIndexSha rep f.originalsha256 with
  | none => rep
  | some i => rep.set i (upd (rep.getD i []) f)

/-- The Lea 0.5 compression merge: cTime0.5, cSpeed0.5, cSize0.5, the
two ratios, cTimeDiff = minTime - record cTime0.4 and cRatioDiff =
cRatio0.5 - record cRatio0.4 (both read from the record before the
assignment). -/
def upd2 (r : JSObj) (f : FileJob) : JSObj :=
  objSet (objSet (objSet (objSet (objSet (objSet (objSet r
    "cTime0.5" (JSVal.num (JSNum.num (cMin5 f))))
    "cSpeed0.5" (JSVal.num (jsDiv (JSNum.num f.ppmSize) (JSNum.num (cMin5 f / 1000)))))
    "cSize0.5" (JSVal.num (duSize f.cSize5)))
    "cRatio0.5" (JSVal.num (jsMul (jsDiv (duSize f.cSize5) (JSNum.num f.originalSize)) (JSNum.num 100))))
    "cRatioPPM0.5" (JSVal.num (jsMul (jsDiv (duSize f.cSize5) (JSNum.num f.ppmSize)) (JSNum.num 100))))
    "cTimeDiff" (JSVal.num (jsSub (JSNum.num (cMin5 f)) (objGetNum r "cTime0.4"))))
    "cRatioDiff" (JSVal.num (jsSub (jsMul (jsDiv (duSize f.cSize5) (JSNum.num f.originalSize)) (JSNum.num 100)) (objGetNum r "cRatio0.4")))

/-- The Lea 0.4 decompression merge: dTime0.4, dSpeed0.4 and
roundTrip0.4 = record cTime0.4 + minTime (the isIdentical0.4 line of
the source is commented out and therefore absent). -/
def upd3 (r : JSObj) (f : FileJob) : JSObj :=
  objSet (objSet (objSet r
    "dTime0.4" (JSVal.num (JSNum.num (dMin4 f))))
    "dSpeed0.4" (JSVal.num (jsDiv (duSize f.dSize4) (JSNum.num (dMin4 f / 1000)))))
    "roundTrip0.4" (JSVal.num (jsAdd (objGetNum r "cTime0.4") (JSNum.num (dMin4 f))))

/-- The Lea 0.5 decompression merge: dTime0.5, dSpeed0.5, dTimeDiff =
minTime - record dTime0.4, roundTrip0.5 = record cTime0.5 + minTime,
roundTripDiff = roundTrip0.5 - record roundTrip0.4, then delete of the
ppmFile property (the isIdentical0.5 line is commented out and absent). -/
def upd4 (r : JSObj) (f : FileJob) : JSObj :=
  objDel (objSet (objSet (objSet (objSet (objSet r
    "dTime0.5" (JSVal.num (JSNum.num (dMin5 f))))
    "dSpeed0.5" (JSVal.num (jsDiv (duSize f.dSize5) (JSNum.num (dMin5 f / 1000)))))
    "dTimeDiff" (JSVal.num (jsSub (JSNum.num (dMin5 f)) (objGetNum r "dTime0.4"))))
    "roundTrip0.5" (JSVal.num (jsAdd (objGetNum r "cTime0.5") (JSNum.num (dMin5 f)))))
    "roundTripDiff" (JSVal.num (jsSub (jsAdd (objGetNum r "cTime0.5") (JSNum.num (dMin5 f))) (objGetNum r "roundTrip0.4"))))
    "ppmFile"

/-- processEverything (index.js): the Lea 0.4 compression pass builds
the report, then the Lea 0.5 compression pass and the two decompression
passes merge into it by content hash; the resulting array is what gets
serialized. -/
def processEverything (files : List FileJob) : List JSObj :=
  let r1 := files.foldl pass1File []
  let r2 := files.foldl (mergePass upd2) r1
  let r3 := files.foldl (mergePass upd3) r2
  files.foldl (mergePass upd4) r3

/-- The record after the Lea 0.5 compression merge. -/
def rec2 (f : FileJob) : JSObj := upd2 (rec1 f) f

/-- The record after the Lea 0.4 decompression merge. -/
def rec3 (f : FileJob) : JSObj := upd3 (rec2 f) f

/-- The finalized record of one file. -/
def finalRec (f : FileJob) : JSObj := upd4 (rec3 f) f

/-- A file as it stands before getPPMStatistics: its report-relevant
fields plus the outcome of fs.statSync and sha256File on the PPM
artifact (none when the PPM file does not exist because normalization
failed, which makes statSync throw). -/
structure RawJob where
  job : FileJob
  ppmStat : Option (ℚ × String)

/-- Builds the stat-enriched file object of one raw job. -/
def statJob (r : RawJob) : Option FileJob :=
  match r.ppmStat with
  | none => none
  | some st =>
    some (FileJob.mk r.job.fullname r.job.filename r.job.originalSize
      r.job.originalsha256 r.job.ppmFile st.1 st.2
      r.job.comp4 r.job.comp5 r.job.decomp4 r.job.decomp5
      r.job.cSize4 r.job.cSize5 r.job.dSize4 r.job.dSize5)

/-- getPPMStatistics (utils.js): a map that stats every PPM artifact;
the first missing artifact makes statSync throw, which aborts the whole
map and propagates out of getAllFiles. -/
def getPPMStatistics : List RawJob → Option (List FileJob)
  | [] => some []
  | r :: rest =>
    match statJob r with
    | none => none
    | some f => (getPPMStatistics rest).map (fun fs => f :: fs)

/-- The run from getAllFiles through the report write: none models the
run dying on an uncaught exception with no report written; otherwise
the serialized report. -/
def runLea (raws : List RawJob) : Option (List (List (String × JsonVal))) :=
  (getPPMStatistics raws).map (fun files => serializeReport (processEverything files))

/-- The key set of every finalized report record, in serialization
order. -/
def reportKeys : List String :=
  ["filename", "originalSize", "originalsha256", "ppmSize", "ppmsha256",
   "cTime0.4", "cSpeed0.4", "cSize0.4", "cRatio0.4", "cRatioPPM0.4",
   "cTime0.5", "cSpeed0.5", "cSize0.5", "cRatio0.5", "cRatioPPM0.5",
   "cTimeDiff", "cRatioDiff",
   "dTime0.4", "dSpeed0.4", "roundTrip0.4",
   "dTime0.5", "dSpeed0.5", "dTimeDiff", "roundTrip0.5", "roundTripDiff"]

/-! ## Concrete inputs used by witnesses and counterexamples -/

/-- C1 counterexample input: the first Lea 0.4 compression invocation
fails, the other two succeed in 95 ms and 130 ms. -/
def jC1 : FileJob :=
  ⟨"pics/a.png", "a.png", 5, "sha-a", "tmp/ppm/a.png.ppm", 15, "ppmsha-a",
   ![none, some 95, some 130], ![some 7, some 8, some 9],
   ![some 3, some 4, some 5], ![some 3, some 3, some 3],
   some 4, some 4, some 15, some 15⟩

/-- C1 witness input: all three Lea 0.4 compression invocations succeed,
in 120 ms, 95 ms and 130 ms. -/
def jW1 : FileJob :=
  ⟨"pics/b.png", "b.png", 5, "sha-b", "tmp/ppm/b.png.ppm", 15, "ppmsha-b",
   ![some 120, some 95, some 130], ![some 7, some 8, some 9],
   ![some 3, some 4, some 5], ![some 3, some 3, some 3],
   some 4, some 4, some 15, some 15⟩

/-- C2 input: a fully successful benchmark of one file. -/
def jC2 : FileJob :=
  ⟨"pics/c.png", "c.png", 5, "sha-c", "tmp/ppm/c.png.ppm", 15, "ppmsha-c",
   ![some 120, some 95, some 130], ![some 150, some 160, some 155],
   ![some 30, some 40, some 50], ![some 35, some 45, some 55],
   some 4, some 5, some 15, some 15⟩

/-- C3 counterexample input: every Lea 0.4 compression invocation fails
(each records -1) on a 2000000 byte PPM artifact. -/
def jC3 : FileJob :=
  ⟨"pics/d.png", "d.png", 3000000, "sha-d", "tmp/ppm/d.png.ppm", 2000000, "ppmsha-d",
   ![none, none, none], ![some 7, some 8, some 9],
   ![some 3, some 4, some 5], ![some 3, some 3, some 3],
   some 4, some 4, some 15, some 15⟩

/-- C3 witness input: minimum Lea 0.4 compression time 500 ms on a
2000000 byte PPM artifact. -/
def jW3 : FileJob :=
  ⟨"pics/e.png", "e.png", 3000000, "sha-e", "tmp/ppm/e.png.ppm", 2000000, "ppmsha-e",
   ![some 500, some 600, some 700], ![some 7, some 8, some 9],
   ![some 3, some 4, some 5], ![some 3, some 3, some 3],
   some 400000, some 4, some 15, some 15⟩

/-- C4 witness input: minimum compression times 100 ms (Lea 0.4) and
150 ms (Lea 0.5). -/
def jW4 : FileJob :=
  ⟨"pics/f.png", "f.png", 5, "sha-f", "tmp/ppm/f.png.ppm", 15, "ppmsha-f",
   ![some 100, some 120, some 110], ![some 150, some 160, some 155],
   ![some 30, some 40, some 50], ![some 35, some 45, some 55],
   some 4, some 5, some 15, some 15⟩

/-- C5 inputs: two distinct paths with identical (size, sha256) and a
zero-byte file. -/
def demoA : SrcFile := ⟨"a/x.png", 5, "h1"⟩

/-- C5 duplicate of demoA under the dedup key. -/
def demoB : SrcFile := ⟨"b/y.png", 5, "h1"⟩

/-- C5 zero-byte file. -/
def demoZ : SrcFile := ⟨"c/z.png", 0, "h2"⟩

/-- C5 input list. -/
def demoFiles : List SrcFile := [demoA, demoB, demoZ]

/-- C6 input: a file whose PPM artifact is missing, so fs.statSync
throws inside getPPMStatistics. -/
def rawC6a : RawJob :=
  ⟨⟨"pics/g.png", "g.png", 5, "sha-g", "tmp/ppm/g.png.ppm", 0, "",
    ![some 1, some 1, some 1], ![some 1, some 1, some 1],
    ![some 1, some 1, some 1], ![some 1, some 1, some 1],
    some 4, some 4, some 15, some 15⟩, none⟩

/-- C6 input: a fully healthy file in the same run as rawC6a. -/
def rawC6b : RawJob :=
  ⟨⟨"pics/h.png", "h.png", 5, "sha-h", "tmp/ppm/h.png.ppm", 0, "",
    ![some 1, some 1, some 1], ![some 1, some 1, some 1],
    ![some 1, some 1, some 1], ![some 1, some 1, some 1],
    some 4, some 4, some 15, some 15⟩, some (15, "ppmsha-h")⟩

/-- C6 witness input: the Lea 0.4 compression fails entirely (all three
invocations fail and the compressed artifact is missing). -/
def jW6 : FileJob :=
  ⟨"pics/i.png", "i.png", 5, "sha-i", "tmp/ppm/i.png.ppm", 15, "ppmsha-i",
   ![none, none, none], ![some 1, some 1, some 1],
   ![some 1, some 1, some 1], ![some 1, some 1, some 1],
   none, some 4, some 15, some 15⟩

/-- C10 witness input: a fully successful run of one file. -/
def jW10 : FileJob :=
  ⟨"pics/k.png", "k.png", 5, "sha-k", "tmp/ppm/k.png.ppm", 15, "ppmsha-k",
   ![some 1, some 2, some 3], ![some 1, some 2, some 3],
   ![some 1, some 2, some 3], ![some 1, some 2, some 3],
   some 4, some 4, some 15, some 15⟩

/-! ## Object lemmas -/

theorem objGet_objSet_self (o : JSObj) (k : String) (v : JSVal) :
    objGet (objSet o k v) k = some v := by
  induction o with
  | nil => simp [objSet, objGet]
  | cons p rest ih =>
    by_cases h : p.1 = k
    · simp [objSet, objGet, h]
    · simp [objSet, objGet, h, ih]

theorem objGet_objSet_ne (o : JSObj) (k k' : String) (v : JSVal) (h : k' ≠ k) :
    objGet (objSet o k v) k' = objGet o k' := by
  induction o with
  | nil => simp [objSet, objGet, Ne.symm h]
  | cons p rest ih =>
    by_cases hp : p.1 = k
    · subst hp
      simp [objSet, objGet, Ne.symm h]
    · simp only [objSet, if_neg hp, objGet, ih]

theorem objGet_objDel_self (o : JSObj) (k : String) :
    objGet (objDel o k) k = none := by
  induction o with
  | nil => simp [objDel, objGet]
  | cons p rest ih =>
    by_cases hp : p.1 = k
    · simp [objDel, hp, ih]
    · simp [objDel, objGet, hp, ih]

theorem objGet_objDel_ne (o : JSObj) (k k' : String) (h : k' ≠ k) :
    objGet (objDel o k) k' = objGet o k' := by
  induction o with
  | nil => simp [objDel]
  | cons p rest ih =>
    by_cases hp : p.1 = k
    · subst hp
      simp [objDel, objGet, Ne.symm h, ih]
    · simp [objDel, objGet, hp, ih]

/-! ## The normal form of one report record -/

/-- The record pushed by the Lea 0.4 compression pass, spelled out. -/
theorem rec1_eq (f : FileJob) :
    rec1 f =
    [("filename", JSVal.str f.filename),
     ("originalSize", JSVal.num (JSNum.num f.originalSize)),
     ("originalsha256", JSVal.str f.originalsha256),
     ("ppmFile", JSVal.str f.ppmFile),
     ("ppmSize", JSVal.num (JSNum.num f.ppmSize)),
     ("ppmsha256", JSVal.str f.ppmsha256),
     ("cTime0.4", JSVal.num (JSNum.num (cMin4 f))),
     ("cSpeed0.4", JSVal.num (jsDiv (JSNum.num f.ppmSize) (JSNum.num (cMin4 f / 1000)))),
     ("cSize0.4", JSVal.num (duSize f.cSize4)),
     ("cRatio0.4", JSVal.num (jsMul (jsDiv (duSize f.cSize4) (JSNum.num f.originalSize)) (JSNum.num 100))),
     ("cRatioPPM0.4", JSVal.num (jsMul (jsDiv (duSize f.cSize4) (JSNum.num f.ppmSize)) (JSNum.num 100)))] := by
  simp [rec1, fileObjOf, testbedObjOf, entryObjOf, objSet, objDel]

/-- The record after the Lea 0.5 compression merge, spelled out. -/
theorem rec2_eq (f : FileJob) :
    rec2 f = (rec1 f) ++
    [("cTime0.5", JSVal.num (JSNum.num (cMin5 f))),
     ("cSpeed0.5", JSVal.num (jsDiv (JSNum.num f.ppmSize) (JSNum.num (cMin5 f / 1000)))),
     ("cSize0.5", JSVal.num (duSize f.cSize5)),
     ("cRatio0.5", JSVal.num (jsMul (jsDiv (duSize f.cSize5) (JSNum.num f.originalSize)) (JSNum.num 100))),
     ("cRatioPPM0.5", JSVal.num (jsMul (jsDiv (duSize f.cSize5) (JSNum.num f.ppmSize)) (JSNum.num 100))),
     ("cTimeDiff", JSVal.num (jsSub (JSNum.num (cMin5 f)) (JSNum.num (cMin4 f)))),
     ("cRatioDiff", JSVal.num (jsSub (jsMul (jsDiv (duSize f.cSize5) (JSNum.num f.originalSize)) (JSNum.num 100)) (jsMul (jsDiv (duSize f.cSize4) (JSNum.num f.originalSize)) (JSNum.num 100))))] := by
  rw [rec2, rec1_eq]
  simp [upd2, objSet, objGetNum, objGet, rec1_eq]

/-- The record after the Lea 0.4 decompression merge, spelled out. -/
theorem rec3_eq (f : FileJob) :
    rec3 f = (rec2 f) ++
    [("dTime0.4", JSVal.num (JSNum.num (dMin4 f))),
     ("dSpeed0.4", JSVal.num (jsDiv (duSize f.dSize4) (JSNum.num (dMin4 f / 1000)))),
     ("roundTrip0.4", JSVal.num (jsAdd (JSNum.num (cMin4 f)) (JSNum.num (dMin4 f))))] := by
  rw [rec3, rec2_eq, rec1_eq]
  simp [upd3, objSet, objGetNum, objGet, rec2_eq, rec1_eq]

/-- The finalized record of one file, spelled out: all twenty-five keys
in serialization order, with fullname and ppmFile absent. -/
theorem finalRec_eq (f : FileJob) :
    finalRec f =
    [("filename", JSVal.str f.filename),
     ("originalSize", JSVal.num (JSNum.num f.originalSize)),
     ("originalsha256", JSVal.str f.originalsha256),
     ("ppmSize", JSVal.num (JSNum.num f.ppmSize)),
     ("ppmsha256", JSVal.str f.ppmsha256),
     ("cTime0.4", JSVal.num (JSNum.num (cMin4 f))),
     ("cSpeed0.4", JSVal.num (jsDiv (JSNum.num f.ppmSize) (JSNum.num (cMin4 f / 1000)))),
     ("cSize0.4", JSVal.num (duSize f.cSize4)),
     ("cRatio0.4", JSVal.num (jsMul (jsDiv (duSize f.cSize4) (JSNum.num f.originalSize)) (JSNum.num 100))),
     ("cRatioPPM0.4", JSVal.num (jsMul (jsDiv (duSize f.cSize4) (JSNum.num f.ppmSize)) (JSNum.num 100))),
     ("cTime0.5", JSVal.num (JSNum.num (cMin5 f))),
     ("cSpeed0.5", JSVal.num (jsDiv (JSNum.num f.ppmSize) (JSNum.num (cMin5 f / 1000)))),
     ("cSize0.5", JSVal.num (duSize f.cSize5)),
     ("cRatio0.5", JSVal.num (jsMul (jsDiv (duSize f.cSize5) (JSNum.num f.originalSize)) (JSNum.num 100))),
     ("cRatioPPM0.5", JSVal.num (jsMul (jsDiv (duSize f.cSize5) (JSNum.num f.ppmSize)) (JSNum.num 100))),
     ("cTimeDiff", JSVal.num (jsSub (JSNum.num (cMin5 f)) (JSNum.num (cMin4 f)))),
     ("cRatioDiff", JSVal.num (jsSub (jsMul (jsDiv (duSize f.cSize5) (JSNum.num f.originalSize)) (JSNum.num 100)) (jsMul (jsDiv (duSize f.cSize4) (JSNum.num f.originalSize)) (JSNum.num 100)))),
     ("dTime0.4", JSVal.num (JSNum.num (dMin4 f))),
     ("dSpeed0.4", JSVal.num (jsDiv (duSize f.dSize4) (JSNum.num (dMin4 f / 1000)))),
     ("roundTrip0.4", JSVal.num (jsAdd (JSNum.num (cMin4 f)) (JSNum.num (dMin4 f)))),
     ("dTime0.5", JSVal.num (JSNum.num (dMin5 f))),
     ("dSpeed0.5", JSVal.num (jsDiv (duSize f.dSize5) (JSNum.num (dMin5 f / 1000)))),
     ("dTimeDiff", JSVal.num (jsSub (JSNum.num (dMin5 f)) (JSNum.num (dMin4 f)))),
     ("roundTrip0.5", JSVal.num (jsAdd (JSNum.num (cMin5 f)) (JSNum.num (dMin5 f)))),
     ("roundTripDiff", JSVal.num (jsSub (jsAdd (JSNum.num (cMin5 f)) (JSNum.num (dMin5 f))) (jsAdd (JSNum.num (cMin4 f)) (JSNum.num (dMin4 f)))))] := by
  rw [finalRec, rec3_eq, rec2_eq, rec1_eq]
  simp [upd4, objSet, objDel, objGetNum, objGet]

/-! ## Fold machinery for the four passes -/

theorem foldl_pass1 (l : List FileJob) (rep : List JSObj) :
    l.foldl pass1File rep = rep ++ l.map rec1 := by
  induction l generalizing rep with
  | nil => simp
  | cons f fs ih => simp [pass1File, ih]

theorem rec1_sha (f : FileJob) :
    objGet (rec1 f) "originalsha256" = some (JSVal.str f.originalsha256) := by
  rw [rec1_eq]
  simp [objGet]

theorem upd2_sha (r : JSObj) (f : FileJob) :
    objGet (upd2 r f) "originalsha256" = objGet r "originalsha256" := by
  simp [upd2, objGet_objSet_ne]

theorem upd3_sha (r : JSObj) (f : FileJob) :
    objGet (upd3 r f) "originalsha256" = objGet r "originalsha256" := by
  simp [upd3, objGet_objSet_ne]

theorem upd4_sha (r : JSObj) (f : FileJob) :
    objGet (upd4 r f) "originalsha256" = objGet r "originalsha256" := by
  simp [upd4, objGet_objSet_ne, objGet_objDel_ne]

theorem rec2_sha (f : FileJob) :
    objGet (rec2 f) "originalsha256" = some (JSVal.str f.originalsha256) := by
  unfold rec2
  rw [upd2_sha, rec1_sha]

theorem rec3_sha (f : FileJob) :
    objGet (rec3 f) "originalsha256" = some (JSVal.str f.originalsha256) := by
  unfold rec3
  rw [upd3_sha, rec2_sha]

theorem foldl_merge_skip (upd : JSObj → FileJob → JSObj) (r : JSObj)
    (fs : List FileJob)
    (hr : ∀ f ∈ fs, objGet r "originalsha256" ≠ some (JSVal.str f.originalsha256)) :
    ∀ rep : List JSObj,
      fs.foldl (mergePass upd) (r :: rep) = r :: fs.foldl (mergePass upd) rep := by
  induction fs with
  | nil => intro rep; simp
  | cons f fs ih =>
    intro rep
    have hf : objGet r "originalsha256" ≠ some (JSVal.str f.originalsha256) :=
      hr f (by simp)
    have hrest : ∀ g ∈ fs, objGet r "originalsha256" ≠ some (JSVal.str g.originalsha256) :=
      fun g hg => hr g (by simp [hg])
    rw [List.foldl_cons, List.foldl_cons]
    have hstep : mergePass upd (r :: rep) f = r :: mergePass upd rep f := by
      unfold mergePass
      rw [show findIndexSha (r :: rep) f.originalsha256
            = (findIndexSha rep f.originalsha256).map (· + 1) from by
        simp [findIndexSha, hf]]
      cases hfind : findIndexSha rep f.originalsha256 with
      | none => simp
      | some i => simp
    rw [hstep, ih hrest]

theorem foldl_merge_map (upd : JSObj → FileJob → JSObj) (g : FileJob → JSObj)
    (hpres : ∀ r f, objGet (upd r f) "originalsha256" = objGet r "originalsha256")
    (hg : ∀ f, objGet (g f) "originalsha256" = some (JSVal.str f.originalsha256)) :
    ∀ fs : List FileJob, (fs.map FileJob.originalsha256).Nodup →
      fs.foldl (mergePass upd) (fs.map g) = fs.map (fun f => upd (g f) f) := by
  intro fs
  induction fs with
  | nil => intro _; simp
  | cons f fs ih =>
    intro hnd
    rw [List.map_cons, List.nodup_cons] at hnd
    obtain ⟨hmem, htail⟩ := hnd
    rw [List.map_cons, List.foldl_cons]
    have h1 : mergePass upd (g f :: fs.map g) f = upd (g f) f :: fs.map g := by
      simp [mergePass, findIndexSha, hg f]
    rw [h1]
    have hskip : ∀ f' ∈ fs,
        objGet (upd (g f) f) "originalsha256" ≠ some (JSVal.str f'.originalsha256) := by
      intro f' hf' hcontra
      rw [hpres, hg] at hcontra
      have : f.originalsha256 = f'.originalsha256 := by
        simpa using hcontra
      exact hmem (this ▸ List.mem_map_of_mem FileJob.originalsha256 hf')
    rw [foldl_merge_skip upd (upd (g f) f) fs hskip (fs.map g), ih htail, List.map_cons]

/-- The report is one finalized record per input file, in input order,
whenever the content hashes are pairwise distinct (two different hashes
agreeing would be a sha256 collision, which the dedup stage upstream has
already ruled out for files of equal size). -/
theorem processEverything_eq (files : List FileJob)
    (hnd : (files.map FileJob.originalsha256).Nodup) :
    processEverything files = files.map finalRec := by
  have hP : processEverything files
      = files.foldl (mergePass upd4)
          (files.foldl (mergePass upd3)
            (files.foldl (mergePass upd2)
              (files.foldl pass1File []))) := rfl
  rw [hP, foldl_pass1, List.nil_append]
  rw [foldl_merge_map upd2 rec1 upd2_sha rec1_sha files hnd]
  have e2 : (files.map fun f => upd2 (rec1 f) f) = files.map rec2 := rfl
  rw [e2, foldl_merge_map upd3 rec2 upd3_sha rec2_sha files hnd]
  have e3 : (files.map fun f => upd3 (rec2 f) f) = files.map rec3 := rfl
  rw [e3, foldl_merge_map upd4 rec3 upd4_sha rec3_sha files hnd]
  rfl

/-! ## Deduplication lemmas (cleanList) -/

theorem filter_of_any_false (acc : List Entry) (p : Entry → Bool)
    (h : acc.any p = false) : acc.filter p = [] := by
  induction acc with
  | nil => simp
  | cons e rest ih =>
    simp only [List.any_cons, Bool.or_eq_false_iff] at h
    simp [List.filter_cons, h.1, ih h.2]

theorem foldl_deduper_absorb (n : ℕ) (h : String) :
    ∀ (l : List SrcFile) (acc : List Entry), acc.any (entryKeyHit n h) = true →
      (l.foldl deduper acc).filter (entryKeyHit n h) = acc.filter (entryKeyHit n h) := by
  intro l
  induction l with
  | nil => intro acc _; simp
  | cons c l ih =>
    intro acc hacc
    rw [List.foldl_cons]
    by_cases h0 : c.size = 0
    · rw [show deduper acc c = acc from by simp [deduper, h0]]
      exact ih acc hacc
    · by_cases hdup : acc.any (entryKeyHit c.size c.sha256) = true
      · rw [show deduper acc c = acc from by simp [deduper, h0, hdup]]
        exact ih acc hacc
      · rw [show deduper acc c = acc ++ [entryOf c] from by simp [deduper, h0, hdup]]
        have hkey : entryKeyHit n h (entryOf c) = false := by
          cases hk : entryKeyHit n h (entryOf c)
          · rfl
          · exfalso
            have hc : c.size = n ∧ c.sha256 = h := by
              simpa [entryKeyHit, entryOf] using hk
            rcases hc with ⟨hc1, hc2⟩
            subst hc1
            subst hc2
            exact hdup hacc
        have hacc2 : (acc ++ [entryOf c]).any (entryKeyHit n h) = true := by
          simp [List.any_append, hacc]
        rw [ih _ hacc2, List.filter_append]
        simp [hkey]

theorem foldl_deduper_fresh (n : ℕ) (h : String) (hn : n ≠ 0) :
    ∀ (l : List SrcFile) (acc : List Entry), acc.any (entryKeyHit n h) = false →
      (l.foldl deduper acc).filter (entryKeyHit n h)
        = ((l.filter (srcKeyHit n h)).head?.map entryOf).toList := by
  intro l
  induction l with
  | nil =>
    intro acc hacc
    simpa using filter_of_any_false acc (entryKeyHit n h) hacc
  | cons c l ih =>
    intro acc hacc
    rw [List.foldl_cons, List.filter_cons]
    by_cases h0 : c.size = 0
    · have hcs : srcKeyHit n h c = false := by
        cases hk : srcKeyHit n h c
        · rfl
        · exfalso
          have hc : c.size = n ∧ c.sha256 = h := by
            simpa [srcKeyHit] using hk
          exact hn (by rw [← hc.1]; exact h0)
      rw [show deduper acc c = acc from by simp [deduper, h0]]
      simp only [hcs, Bool.false_eq_true, if_false]
      exact ih acc hacc
    · by_cases hdup : acc.any (entryKeyHit c.size c.sha256) = true
      · have hcs : srcKeyHit n h c = false := by
          cases hk : srcKeyHit n h c
          · rfl
          · exfalso
            have hc : c.size = n ∧ c.sha256 = h := by
              simpa [srcKeyHit] using hk
            rcases hc with ⟨hc1, hc2⟩
            subst hc1
            subst hc2
            rw [hdup] at hacc
            exact Bool.true_eq_false.mp hacc
        rw [show deduper acc c = acc from by simp [deduper, h0, hdup]]
        simp only [hcs, Bool.false_eq_true, if_false]
        exact ih acc hacc
      · rw [show deduper acc c = acc ++ [entryOf c] from by simp [deduper, h0, hdup]]
        by_cases hcs : srcKeyHit n h c = true
        · have hc : c.size = n ∧ c.sha256 = h := by
            simpa [srcKeyHit] using hcs
          rcases hc with ⟨hc1, hc2⟩
          subst hc1
          subst hc2
          have hek : entryKeyHit c.size c.sha256 (entryOf c) = true := by
            simp [entryKeyHit, entryOf]
          have habs : (acc ++ [entryOf c]).any (entryKeyHit c.size c.sha256) = true := by
            simp [List.any_append, hek]
          rw [foldl_deduper_absorb c.size c.sha256 l _ habs, List.filter_append,
            filter_of_any_false acc _ hacc]
          simp [hek, hcs]
        · have hek : entryKeyHit n h (entryOf c) = false := by
            cases hk : entryKeyHit n h (entryOf c)
            · rfl
            · exfalso
              have hc : c.size = n ∧ c.sha256 = h := by
                simpa [entryKeyHit, entryOf] using hk
              exact hcs (by simp [srcKeyHit, hc.1, hc.2])
          have hacc2 : (acc ++ [entryOf c]).any (entryKeyHit n h) = false := by
            simp [List.any_append, hacc, hek]
          simp only [hcs, Bool.false_eq_true, if_false]
          exact ih _ hacc2

theorem foldl_deduper_pos :
    ∀ (l : List SrcFile) (acc : List Entry),
      (∀ e ∈ acc, 0 < e.originalSize) →
      ∀ e ∈ l.foldl deduper acc, 0 < e.originalSize := by
  intro l
  induction l with
  | nil => intro acc hacc; simpa using hacc
  | cons c l ih =>
    intro acc hacc
    rw [List.foldl_cons]
    refine ih (deduper acc c) ?_
    intro e he
    unfold deduper at he
    by_cases h0 : c.size = 0
    · rw [if_pos h0] at he
      exact hacc e he
    · rw [if_neg h0] at he
      by_cases hdup : acc.any (entryKeyHit c.size c.sha256) = true
      · rw [if_pos hdup] at he
        exact hacc e he
      · rw [if_neg hdup] at he
        rcases List.mem_append.mp he with hmem | hmem
        · exact hacc e hmem
        · have : e = entryOf c := by simpa using hmem
          subst this
          simpa [entryOf] using Nat.pos_of_ne_zero h0

theorem foldl_deduperH :
    ∀ (l : List SrcFile) (p : List Entry × List String),
      (l.foldl deduperH p).1 = l.foldl deduper p.1
      ∧ (l.foldl deduperH p).2 = p.2 ++ l.map SrcFile.path := by
  intro l
  induction l with
  | nil => intro p; simp
  | cons c l ih =>
    intro p
    rw [List.foldl_cons, List.foldl_cons]
    rcases ih (deduperH p c) with ⟨ih1, ih2⟩
    constructor
    · rw [ih1]
      rfl
    · rw [ih2]
      simp [deduperH]

/-! ## getPPMStatistics lemma -/

theorem getPPMStatistics_none :
    ∀ raws : List RawJob, (∃ r ∈ raws, r.ppmStat = none) →
      getPPMStatistics raws = none := by
  intro raws
  induction raws with
  | nil => rintro ⟨r, hr, _⟩; simp at hr
  | cons r rest ih =>
    rintro ⟨r0, hr0, hst⟩
    rcases List.mem_cons.mp hr0 with rfl | hmem
    · simp [getPPMStatistics, statJob, hst]
    · cases hs : statJob r with
      | none => simp [getPPMStatistics, hs]
      | some f => simp [getPPMStatistics, hs, ih ⟨r0, hmem, hst⟩]


/-- A run over a single file produces exactly its finalized record. -/
theorem processEverything_single (j : FileJob) :
    processEverything [j] = [finalRec j] := by
  rw [processEverything_eq [j] (by simp)]
  rfl

/-! ## Claim theorems -/

/-- The three-invocation timing discipline shared by both compress
loops: the times array has exactly three entries, Math.min of them is -1
exactly when at least one invocation failed, and when all three succeed
it is the non-negative minimum of the measured durations. -/
theorem minTime_spec (r : Fin 3 → Option ℕ) :
    (timesList r).length = 3
    ∧ (minTime r = -1 ↔ (r 0 = none ∨ r 1 = none ∨ r 2 = none))
    ∧ ((r 0 ≠ none ∧ r 1 ≠ none ∧ r 2 ≠ none) →
        (0 ≤ minTime r
         ∧ (minTime r = timeOf (r 0) ∨ minTime r = timeOf (r 1) ∨ minTime r = timeOf (r 2))
         ∧ minTime r ≤ timeOf (r 0)
         ∧ minTime r ≤ timeOf (r 1)
         ∧ minTime r ≤ timeOf (r 2))) := by
  refine ⟨by simp [timesList], ?_, ?_⟩
  · rcases h0 : r 0 with _ | t0 <;> rcases h1 : r 1 with _ | t1 <;>
      rcases h2 : r 2 with _ | t2
    all_goals simp [minTime, timeOf, runSync, h0, h1, h2]
    all_goals omega
  · rcases h0 : r 0 with _ | t0 <;> rcases h1 : r 1 with _ | t1 <;>
      rcases h2 : r 2 with _ | t2
    all_goals simp [minTime, timeOf, runSync, h0, h1, h2]
    all_goals omega

/-- C1 (amended): for every (file, variant) benchmark — variant 0.4 and
variant 0.5 alike — the compressor is invoked exactly three times
sequentially and the recorded compress time (cTime0.4 respectively
cTime0.5) is the minimum of the three recorded values, where a failed
invocation records -1.  Hence the recorded time equals the failure
sentinel -1 exactly when at least one of the three invocations fails —
not only when all of them fail — and it is a valid non-negative duration
(the minimum of the measured durations) exactly when all three succeed. -/
theorem claim_C1 (j : FileJob) :
    (timesList j.comp4).length = 3
    ∧ objGet ((processEverything [j]).getD 0 []) "cTime0.4"
        = some (JSVal.num (JSNum.num (cMin4 j)))
    ∧ (minTime j.comp4 = -1 ↔ (j.comp4 0 = none ∨ j.comp4 1 = none ∨ j.comp4 2 = none))
    ∧ ((j.comp4 0 ≠ none ∧ j.comp4 1 ≠ none ∧ j.comp4 2 ≠ none) →
        (0 ≤ minTime j.comp4
         ∧ (minTime j.comp4 = timeOf (j.comp4 0) ∨ minTime j.comp4 = timeOf (j.comp4 1)
            ∨ minTime j.comp4 = timeOf (j.comp4 2))
         ∧ minTime j.comp4 ≤ timeOf (j.comp4 0)
         ∧ minTime j.comp4 ≤ timeOf (j.comp4 1)
         ∧ minTime j.comp4 ≤ timeOf (j.comp4 2)))
    ∧ (timesList j.comp5).length = 3
    ∧ objGet ((processEverything [j]).getD 0 []) "cTime0.5"
        = some (JSVal.num (JSNum.num (cMin5 j)))
    ∧ (minTime j.comp5 = -1 ↔ (j.comp5 0 = none ∨ j.comp5 1 = none ∨ j.comp5 2 = none))
    ∧ ((j.comp5 0 ≠ none ∧ j.comp5 1 ≠ none ∧ j.comp5 2 ≠ none) →
        (0 ≤ minTime j.comp5
         ∧ (minTime j.comp5 = timeOf (j.comp5 0) ∨ minTime j.comp5 = timeOf (j.comp5 1)
            ∨ minTime j.comp5 = timeOf (j.comp5 2))
         ∧ minTime j.comp5 ≤ timeOf (j.comp5 0)
         ∧ minTime j.comp5 ≤ timeOf (j.comp5 1)
         ∧ minTime j.comp5 ≤ timeOf (j.comp5 2))) := by
  obtain ⟨hlen4, hiff4, hall4⟩ := minTime_spec j.comp4
  obtain ⟨hlen5, hiff5, hall5⟩ := minTime_spec j.comp5
  have hrec4 : objGet ((processEverything [j]).getD 0 []) "cTime0.4"
      = some (JSVal.num (JSNum.num (cMin4 j))) := by
    rw [processEverything_single j]
    simp only [List.getD_cons_zero]
    rw [finalRec_eq]
    simp [objGet]
  have hrec5 : objGet ((processEverything [j]).getD 0 []) "cTime0.5"
      = some (JSVal.num (JSNum.num (cMin5 j))) := by
    rw [processEverything_single j]
    simp only [List.getD_cons_zero]
    rw [finalRec_eq]
    simp [objGet]
  exact ⟨hlen4, hrec4, hiff4, hall4, hlen5, hrec5, hiff5, hall5⟩

set_option maxHeartbeats 1000000 in
/-- C1 counterexample: with invocation outcomes (failure, 95 ms, 130 ms)
one invocation succeeded, yet the recorded compress time is the failure
sentinel -1 rather than a valid non-negative duration — refuting the
claim that the sentinel is recorded only when every invocation fails. -/
theorem claim_C1_counterexample :
    jC1.comp4 1 = some 95
    ∧ objGet ((processEverything [jC1]).getD 0 []) "cTime0.4"
        = some (JSVal.num (JSNum.num (-1))) := by
  decide

set_option maxHeartbeats 1000000 in
/-- C1 witness: at the all-successful input jW1 (variant 0.4 durations
120 ms, 95 ms, 130 ms; variant 0.5 durations 7 ms, 8 ms, 9 ms) the
theorem yields a non-negative recorded minimum for each variant, and the
minima evaluate to 95 and 7. -/
theorem claim_C1_witness :
    minTime jW1.comp4 = 95 ∧ 0 ≤ minTime jW1.comp4
    ∧ minTime jW1.comp5 = 7 ∧ 0 ≤ minTime jW1.comp5 := by
  refine ⟨by decide, ((claim_C1 jW1).2.2.2.1 (by decide)).1, by decide,
    ((claim_C1 jW1).2.2.2.2.2.2.2 (by decide)).1⟩

set_option maxHeartbeats 1000000 in
/-- C2 (code bug): the finalized report record of a fully successful
benchmark contains no isIdentical key at all — the two fidelity-check
lines of the source are commented out — although the header comment of
the program documents an isIdentical field and the claim requires it to
be the conjunction of the per-variant restored-hash comparisons. -/
theorem claim_C2 :
    (processEverything [jC2]).length = 1
    ∧ objGet ((processEverything [jC2]).getD 0 []) "isIdentical" = none
    ∧ objGet ((processEverything [jC2]).getD 0 []) "ppmsha256"
        = some (JSVal.str "ppmsha-c") := by
  decide

/-- C3 (amended): the recorded compression speed cSpeed is always
ppmSize / (compressTimeMs / 1000) bytes per second computed with
JavaScript division, for both variants (2000000 bytes at 500 ms gives
4000000, and the computation never crashes); but when compressTimeMs is
the failure sentinel -1 the recorded speed is the plain negative number
-1000 * ppmSize — not a null or NaN sentinel — and only for
compressTimeMs = 0 does the speed become Infinity, which serializes as
null. -/
theorem claim_C3 (f : FileJob) :
    objGet ((processEverything [f]).getD 0 []) "cSpeed0.4"
      = some (JSVal.num (jsDiv (JSNum.num f.ppmSize) (JSNum.num (cMin4 f / 1000))))
    ∧ objGet ((processEverything [f]).getD 0 []) "cSpeed0.5"
      = some (JSVal.num (jsDiv (JSNum.num f.ppmSize) (JSNum.num (cMin5 f / 1000))))
    ∧ jsDiv (JSNum.num 2000000) (JSNum.num (500 / 1000)) = JSNum.num 4000000
    ∧ (∀ q : ℚ, 0 < q →
        jsDiv (JSNum.num q) (JSNum.num ((-1) / 1000)) = JSNum.num (-1000 * q))
    ∧ (∀ q : ℚ, 0 < q →
        jsDiv (JSNum.num q) (JSNum.num (0 / 1000)) = JSNum.posInf
        ∧ jsvalToJson (JSVal.num JSNum.posInf) = JsonVal.null) := by
  refine ⟨?_, ?_, ?_, ?_, ?_⟩
  · rw [processEverything_single f]
    simp only [List.getD_cons_zero]
    rw [finalRec_eq]
    simp [objGet]
  · rw [processEverything_single f]
    simp only [List.getD_cons_zero]
    rw [finalRec_eq]
    simp [objGet]
  · have hne : ((500 : ℚ) / 1000) ≠ 0 := by norm_num
    simp only [jsDiv, if_neg hne, JSNum.num.injEq]
    norm_num
  · intro q hq
    have hne : ((-1 : ℚ) / 1000) ≠ 0 := by norm_num
    simp only [jsDiv, if_neg hne, JSNum.num.injEq]
    rw [div_eq_iff hne]
    ring
  · intro q hq
    refine ⟨?_, rfl⟩
    have hz : ((0 : ℚ) / 1000) = 0 := by norm_num
    simp [jsDiv, hz, hq]

set_option maxHeartbeats 1000000 in
/-- C3 counterexample: when every Lea 0.4 invocation fails the recorded
compress time is -1 (which is ≤ 0), and the recorded and serialized
speed for a 2000000 byte PPM artifact is the finite negative number
-2000000000 — not a null or NaN sentinel as the claim requires. -/
theorem claim_C3_counterexample :
    objGet ((processEverything [jC3]).getD 0 []) "cTime0.4"
      = some (JSVal.num (JSNum.num (-1)))
    ∧ objGet ((processEverything [jC3]).getD 0 []) "cSpeed0.4"
      = some (JSVal.num (JSNum.num (-2000000000)))
    ∧ getJson (serializeObj ((processEverything [jC3]).getD 0 [])) "cSpeed0.4"
      = some (JsonVal.num (-2000000000))
    ∧ JsonVal.num (-2000000000) ≠ JsonVal.null := by
  have hm : cMin4 jC3 = -1 := by
    rw [cMin4, show minTime jC3.comp4 = -1 from by decide]
    norm_num
  have hp : jC3.ppmSize = 2000000 := rfl
  have hsp : jsDiv (JSNum.num jC3.ppmSize) (JSNum.num (cMin4 jC3 / 1000))
      = JSNum.num (-2000000000) := by
    rw [hm, hp]
    have hne : ((-1 : ℚ) / 1000) ≠ 0 := by norm_num
    simp only [jsDiv, if_neg hne, JSNum.num.injEq]
    norm_num
  rw [processEverything_single jC3]
  simp only [List.getD_cons_zero]
  rw [finalRec_eq]
  refine ⟨?_, ?_, ?_, by decide⟩
  · simp [objGet, hm]
  · simp [objGet, hsp]
  · simp [serializeObj, getJson, jsvalToJson, hsp]

set_option maxHeartbeats 1000000 in
/-- C3 witness: at input jW3 (minimum time 500 ms, PPM size 2000000) the
amended formula evaluates to the documented 4000000 bytes per second,
and the sentinel case of the theorem instantiates to
2000000 / (-1 / 1000) = -1000 * 2000000. -/
theorem claim_C3_witness :
    objGet ((processEverything [jW3]).getD 0 []) "cSpeed0.4"
      = some (JSVal.num (JSNum.num 4000000))
    ∧ jsDiv (JSNum.num 2000000) (JSNum.num ((-1) / 1000)) = JSNum.num (-1000 * 2000000) := by
  constructor
  · rw [(claim_C3 jW3).1]
    have hm : cMin4 jW3 = 500 := by
      rw [cMin4, show minTime jW3.comp4 = 500 from by decide]
      norm_num
    have hp : jW3.ppmSize = 2000000 := rfl
    rw [hm, hp]
    have hne : ((500 : ℚ) / 1000) ≠ 0 := by norm_num
    simp only [jsDiv, if_neg hne, JSNum.num.injEq]
    norm_num
  · exact (claim_C3 jW3).2.2.2.1 2000000 (by norm_num)

/-- C4: every cross-variant delta in a finalized record follows the
B - A sign convention with A the Lea 0.4 baseline and B the Lea 0.5
variant: cTimeDiff = cTime0.5 - cTime0.4, cRatioDiff = cRatio0.5 -
cRatio0.4, dTimeDiff = dTime0.5 - dTime0.4 and roundTripDiff =
roundTrip0.5 - roundTrip0.4 (JavaScript subtraction). -/
theorem claim_C4 (files : List FileJob)
    (hnd : (files.map FileJob.originalsha256).Nodup) :
    ∀ r ∈ processEverything files,
      objGetNum r "cTimeDiff" = jsSub (objGetNum r "cTime0.5") (objGetNum r "cTime0.4")
      ∧ objGetNum r "cRatioDiff" = jsSub (objGetNum r "cRatio0.5") (objGetNum r "cRatio0.4")
      ∧ objGetNum r "dTimeDiff" = jsSub (objGetNum r "dTime0.5") (objGetNum r "dTime0.4")
      ∧ objGetNum r "roundTripDiff"
          = jsSub (objGetNum r "roundTrip0.5") (objGetNum r "roundTrip0.4") := by
  rw [processEverything_eq files hnd]
  intro r hr
  obtain ⟨f, hf, rfl⟩ := List.mem_map.mp hr
  rw [finalRec_eq]
  exact ⟨by simp [objGetNum, objGet], by simp [objGetNum, objGet],
    by simp [objGetNum, objGet], by simp [objGetNum, objGet]⟩

set_option maxHeartbeats 1000000 in
/-- C4 witness: at input jW4 (compress minima 100 ms for Lea 0.4 and
150 ms for Lea 0.5) the theorem yields the B - A equation, and the
recorded values evaluate to 100, 150 and diff 50 = 150 - 100. -/
theorem claim_C4_witness :
    objGetNum ((processEverything [jW4]).getD 0 []) "cTimeDiff"
      = jsSub (objGetNum ((processEverything [jW4]).getD 0 []) "cTime0.5")
          (objGetNum ((processEverything [jW4]).getD 0 []) "cTime0.4")
    ∧ objGetNum ((processEverything [jW4]).getD 0 []) "cTime0.4" = JSNum.num 100
    ∧ objGetNum ((processEverything [jW4]).getD 0 []) "cTime0.5" = JSNum.num 150
    ∧ objGetNum ((processEverything [jW4]).getD 0 []) "cTimeDiff" = JSNum.num 50 := by
  have h4 : cMin4 jW4 = 100 := by
    rw [cMin4, show minTime jW4.comp4 = 100 from by decide]
    norm_num
  have h5 : cMin5 jW4 = 150 := by
    rw [cMin5, show minTime jW4.comp5 = 150 from by decide]
    norm_num
  have hmem : (processEverything [jW4]).getD 0 [] ∈ processEverything [jW4] := by
    rw [processEverything_single jW4]
    simp
  refine ⟨(claim_C4 [jW4] (by simp) ((processEverything [jW4]).getD 0 []) hmem).1, ?_, ?_, ?_⟩
  · rw [processEverything_single jW4]
    simp only [List.getD_cons_zero]
    rw [finalRec_eq]
    simp [objGetNum, objGet, h4]
  · rw [processEverything_single jW4]
    simp only [List.getD_cons_zero]
    rw [finalRec_eq]
    simp [objGetNum, objGet, h5]
  · have hdiff : jsSub (JSNum.num (cMin5 jW4)) (JSNum.num (cMin4 jW4)) = JSNum.num 50 := by
      rw [h4, h5]
      simp only [jsSub, jsAdd, jsNeg, JSNum.num.injEq]
      norm_num
    rw [processEverything_single jW4]
    simp only [List.getD_cons_zero]
    rw [finalRec_eq]
    simp [objGetNum, objGet, hdiff]

/-- C5: cleanList keeps, for every nonzero dedup key (size, sha256),
exactly the entry of the first-encountered candidate with that key — so
two or more input files with identical size and content hash produce
exactly one FileRecord, the first one — and every valid-extension
candidate is hashed (the instrumented trace lists them all, duplicates
and zero-byte files included), while zero-byte files produce no record. -/
theorem claim_C5 (files : List SrcFile) :
    (∀ (n : ℕ) (h : String), n ≠ 0 →
      (cleanList files).filter (entryKeyHit n h)
        = (((files.filter validExtFile).filter (srcKeyHit n h)).head?.map entryOf).toList)
    ∧ (∀ f1 ∈ files, validExtFile f1 = true → f1.size ≠ 0 →
        ((cleanList files).filter (entryKeyHit f1.size f1.sha256)).length = 1)
    ∧ (∀ e ∈ cleanList files, 0 < e.originalSize)
    ∧ (cleanListH files).2 = (files.filter validExtFile).map SrcFile.path
    ∧ (cleanListH files).1 = cleanList files := by
  have hchar : ∀ (n : ℕ) (h : String), n ≠ 0 →
      (cleanList files).filter (entryKeyHit n h)
        = (((files.filter validExtFile).filter (srcKeyHit n h)).head?.map entryOf).toList := by
    intro n h hn
    exact foldl_deduper_fresh n h hn (files.filter validExtFile) [] (by simp)
  refine ⟨hchar, ?_, ?_, ?_, ?_⟩
  · intro f1 hf1 hv hs
    rw [hchar f1.size f1.sha256 hs]
    have hmem : f1 ∈ (files.filter validExtFile).filter (srcKeyHit f1.size f1.sha256) :=
      List.mem_filter.mpr ⟨List.mem_filter.mpr ⟨hf1, hv⟩, by simp [srcKeyHit]⟩
    rcases hcons : (files.filter validExtFile).filter (srcKeyHit f1.size f1.sha256)
      with _ | ⟨a, l⟩
    · rw [hcons] at hmem
      simp at hmem
    · simp
  · exact foldl_deduper_pos (files.filter validExtFile) [] (by simp)
  · unfold cleanListH
    rw [(foldl_deduperH (files.filter validExtFile) ([], [])).2]
    simp
  · unfold cleanListH cleanList
    exact (foldl_deduperH (files.filter validExtFile) ([], [])).1

set_option maxHeartbeats 1000000 in
/-- C5 witness: on the concrete corpus demoFiles — two different paths
with identical (size, hash) plus a zero-byte file — the theorem yields
exactly one record for the duplicated key, namely the entry of the
first-encountered file, and the hashed trace lists all three candidate
paths. -/
theorem claim_C5_witness :
    (cleanList demoFiles).filter (entryKeyHit 5 "h1") = [entryOf demoA]
    ∧ ((cleanList demoFiles).filter (entryKeyHit 5 "h1")).length = 1
    ∧ (cleanListH demoFiles).2 = ["a/x.png", "b/y.png", "c/z.png"]
    ∧ (∀ e ∈ cleanList demoFiles, 0 < e.originalSize) := by
  refine ⟨?_, ?_, ?_, (claim_C5 demoFiles).2.2.1⟩
  · rw [(claim_C5 demoFiles).1 5 "h1" (by decide)]
    decide
  · exact (claim_C5 demoFiles).2.1 demoA (by decide) (by decide) (by decide)
  · rw [(claim_C5 demoFiles).2.2.2.1]
    decide

/-- C6 (amended): every file whose PPM statistics stage succeeded gets a
record with the full stable 25-key schema, a measurement failure of the
compressed-artifact size serializes that size field as null (NaN is
stringified to null), and a failed variant records the numeric sentinel
-1 in its timing field rather than null; but a file whose normalization
failed does not appear as a record with null fields — fs.statSync throws
inside getPPMStatistics, the whole run aborts and no report is written
at all, so one failing file does prevent every other file from
completing. -/
theorem claim_C6 :
    (∀ raws : List RawJob, (∃ r ∈ raws, r.ppmStat = none) → runLea raws = none)
    ∧ (∀ files : List FileJob, (files.map FileJob.originalsha256).Nodup →
        ∀ f ∈ files, finalRec f ∈ processEverything files
          ∧ (serializeObj (finalRec f)).map Prod.fst = reportKeys
          ∧ (minTime f.comp4 = -1 →
              getJson (serializeObj (finalRec f)) "cTime0.4" = some (JsonVal.num (-1)))
          ∧ (f.cSize4 = none →
              getJson (serializeObj (finalRec f)) "cSize0.4" = some JsonVal.null)) := by
  constructor
  · intro raws hex
    unfold runLea
    rw [getPPMStatistics_none raws hex]
    rfl
  · intro files hnd f hf
    refine ⟨?_, ?_, ?_, ?_⟩
    · rw [processEverything_eq files hnd]
      exact List.mem_map_of_mem finalRec hf
    · rw [finalRec_eq]
      rfl
    · intro hm
      have hc : cMin4 f = -1 := by
        rw [cMin4, hm]
        norm_num
      rw [finalRec_eq]
      simp [serializeObj, getJson, jsvalToJson, hc]
    · intro hc
      rw [finalRec_eq]
      simp [serializeObj, getJson, jsvalToJson, hc, duSize]

/-- C6 counterexample: a run containing one file whose normalization
failed (missing PPM artifact) next to one fully healthy file produces no
report at all — the failing record is not rendered with null fields, it
and every other record are omitted wholesale, and the healthy file does
not complete. -/
theorem claim_C6_counterexample :
    runLea [rawC6a, rawC6b] = none ∧ rawC6b.ppmStat = some (15, "ppmsha-h") :=
  ⟨rfl, rfl⟩

set_option maxHeartbeats 1000000 in
/-- C6 witness: the amended theorem applied to a one-bad-file run (no
report at all) and to the healthy-statistics file jW6 whose Lea 0.4
compression failed entirely: full 25-key schema, cTime0.4 serialized as
the number -1, cSize0.4 serialized as null. -/
theorem claim_C6_witness :
    runLea [rawC6a] = none
    ∧ finalRec jW6 ∈ processEverything [jW6]
    ∧ (serializeObj (finalRec jW6)).map Prod.fst = reportKeys
    ∧ getJson (serializeObj (finalRec jW6)) "cTime0.4" = some (JsonVal.num (-1))
    ∧ getJson (serializeObj (finalRec jW6)) "cSize0.4" = some JsonVal.null := by
  obtain ⟨hmem, hkeys, ht, hs⟩ := claim_C6.2 [jW6] (by simp) jW6 (by simp)
  exact ⟨claim_C6.1 [rawC6a] ⟨rawC6a, by simp, rfl⟩, hmem, hkeys, ht (by decide), hs rfl⟩

/-- C7 (code bug): for a file already in PPM format normalizeToPPM takes
the copy branch and never invokes the converter, but the destination it
computes is path.join(ppmTempFolder, file.filename.ppm), where
file.filename.ppm is a property access on a string and therefore
undefined, so path.join throws a TypeError: no byte-identical copy is
ever produced and the run aborts, refuting the copy half of the claim
while matching its converter-avoidance half. -/
theorem claim_C7 :
    normalizeStep "photo.ppm" = NormStep.typeError
    ∧ lowerStr (extname "photo.ppm") = ".ppm"
    ∧ strPropPpm "photo.ppm" = none := by
  decide

/-- C8 (code bug): when GraphicsMagick — or, on non-Windows, wine — is
missing, the probing execSync call throws at module load (the callback
argument the source passes sits in the ignored options slot), so the
process dies from an uncaught exception, exit code 1, before either
process.exit(2) branch can run; the exit-code-2 outcome is unreachable
in every environment, refuting the claimed exit code while confirming
that no work on files begins. -/
theorem claim_C8 :
    startupCheck false false true = Startup.uncaughtException
    ∧ startupCheck false false false = Startup.uncaughtException
    ∧ startupCheck false true false = Startup.uncaughtException
    ∧ startupCheck false true true = Startup.proceeds
    ∧ startupCheck true true false = Startup.proceeds
    ∧ startupCheck true false false = Startup.uncaughtException
    ∧ (∀ w g win : Bool, startupCheck win g w ≠ Startup.exitCode 2) := by
  decide

/-- C9 (amended): subprocess invocations inside runSync are not bounded
by any timeout: the options object passed to execSync carries only the
encoding key, a successful invocation of any finite duration d completes
normally with its full duration recorded, and only a launch error or a
non-zero exit is treated as a failure, recorded as the -1 sentinel. -/
theorem claim_C9 :
    (∀ d : ℕ, runSync (some d) = ⟨(d : ℤ), true⟩)
    ∧ runSync none = ⟨-1, false⟩
    ∧ objGet execSyncOptions "timeout" = none :=
  ⟨fun _ => rfl, rfl, by decide⟩

/-- C9 counterexample: an invocation that takes 3600000 ms — a full
hour, far beyond the claimed 60 s default timeout — completes normally
with its full duration recorded as a success, and the execSync options
carry no timeout key, refuting the claim that every invocation runs
under a per-invocation timeout after which it is treated as a failure. -/
theorem claim_C9_counterexample :
    runSync (some 3600000) = ⟨3600000, true⟩
    ∧ (runSync (some 3600000)).ok = true
    ∧ objGet execSyncOptions "timeout" = none
    ∧ 60000 < 3600000 := by
  decide

/-- C10: every record of the final report contains neither the fullname
key (deleted when the file is materialized into the testbed by
toTestbed) nor the ppmFile key (deleted at the end of the Lea 0.5
decompression merge, before serialization), provided the content hashes
of the benchmarked files are pairwise distinct — which dedup guarantees
upstream short of a sha256 collision. -/
theorem claim_C10 (files : List FileJob)
    (hnd : (files.map FileJob.originalsha256).Nodup) :
    ∀ r ∈ processEverything files,
      objGet r "fullname" = none ∧ objGet r "ppmFile" = none := by
  rw [processEverything_eq files hnd]
  intro r hr
  obtain ⟨f, hf, rfl⟩ := List.mem_map.mp hr
  rw [finalRec_eq]
  exact ⟨by simp [objGet], by simp [objGet]⟩

set_option maxHeartbeats 1000000 in
/-- C10 witness: the theorem applied to the concrete one-file run jW10:
its finalized record exposes neither fullname nor ppmFile. -/
theorem claim_C10_witness :
    objGet ((processEverything [jW10]).getD 0 []) "fullname" = none
    ∧ objGet ((processEverything [jW10]).getD 0 []) "ppmFile" = none := by
  have hmem : (processEverything [jW10]).getD 0 [] ∈ processEverything [jW10] := by
    rw [processEverything_single jW10]
    simp
  exact claim_C10 [jW10] (by simp) ((processEverything [jW10]).getD 0 []) hmem
